import Mathlib

/-!
Shallow embedding of the fastrie library (src/lib.rs): a static byte-keyed
trie serialized into a flat buffer of W-byte indices, with a builder
(FastrieBuilderNode), a serializer (_build and prebuild) and a reader
(Fastrie) offering longest-prefix search and membership testing.

Bytes are modelled as Nat (each in 0..255 for data produced by the
serializer), buffers as List Nat, and values tables as List V.  Rust
panics (failed assert, Option unwrap) are modelled by Option-valued
functions returning none, or by an Except error where the claim under
study is precisely about the panic.  Out-of-range reads, which panic in
Rust, are modelled totally by List.getD with default 0; theorems that
depend on such a read say so in their documentation.
-/

/-- Byte used as filler in reserved index slots during build (0xFF). -/
def RESERVED_BYTE : Nat := 0xFF

/-- Maximum gap length between two children sharing a cluster (an i16 in the source). -/
def MAX_CLUSTER_GAP_LEN : Int := 3

/-- How many bytes store an index in the built data (IndexWidth(pub usize)). -/
structure IndexWidth where
  w : Nat
deriving DecidableEq

/-- reserve_idx: append w copies of RESERVED_BYTE, returning the new buffer and
the position of the first reserved byte. -/
def IndexWidth.reserve_idx (iw : IndexWidth) (vec : List Nat) : List Nat × Nat :=
  (vec ++ List.replicate iw.w RESERVED_BYTE, vec.length)

/-- write_idx: store idx into vec at pos, one byte per iteration, least
significant byte first (vec[pos + i] = idx as u8; idx >>= 8). -/
def IndexWidth.write_idx (iw : IndexWidth) (vec : List Nat) (pos idx : Nat) : List Nat :=
  (List.range iw.w).foldl (fun v i => v.set (pos + i) ((idx >>> (8 * i)) % 256)) vec

/-- push_idx: reserve w bytes at the end of vec, then write idx there. -/
def IndexWidth.push_idx (iw : IndexWidth) (vec : List Nat) (idx : Nat) : List Nat :=
  let r := iw.reserve_idx vec
  iw.write_idx r.1 r.2 idx

/-- read_idx: fold the w bytes at pos most-significant-first
(idx <<= 8; idx |= data[pos + i]). -/
def IndexWidth.read_idx (iw : IndexWidth) (data : List Nat) (pos : Nat) : Nat :=
  (List.range iw.w).foldl (fun idx i => (idx <<< 8) ||| data.getD (pos + i) 0) 0

/-- The builder tree node: built flag, children map (HashMap<u8, _> in the
source, modelled as an association list kept sorted by key; the source
sorts the key set before every use, so the map order is unobservable),
index width, and optional value. -/
inductive FastrieBuilderNode (V : Type) : Type where
  | mk : Bool → List (Nat × FastrieBuilderNode V) → IndexWidth → Option V → FastrieBuilderNode V

def FastrieBuilderNode.built : FastrieBuilderNode V → Bool
  | .mk b _ _ _ => b

def FastrieBuilderNode.children : FastrieBuilderNode V → List (Nat × FastrieBuilderNode V)
  | .mk _ ch _ _ => ch

def FastrieBuilderNode.index_width : FastrieBuilderNode V → IndexWidth
  | .mk _ _ iw _ => iw

def FastrieBuilderNode.value : FastrieBuilderNode V → Option V
  | .mk _ _ _ v => v

@[simp] theorem FastrieBuilderNode.built_mk (b : Bool) (ch : List (Nat × FastrieBuilderNode V))
    (iw : IndexWidth) (v : Option V) : (FastrieBuilderNode.mk b ch iw v).built = b := rfl

@[simp] theorem FastrieBuilderNode.children_mk (b : Bool) (ch : List (Nat × FastrieBuilderNode V))
    (iw : IndexWidth) (v : Option V) : (FastrieBuilderNode.mk b ch iw v).children = ch := rfl

@[simp] theorem FastrieBuilderNode.index_width_mk (b : Bool) (ch : List (Nat × FastrieBuilderNode V))
    (iw : IndexWidth) (v : Option V) : (FastrieBuilderNode.mk b ch iw v).index_width = iw := rfl

@[simp] theorem FastrieBuilderNode.value_mk (b : Bool) (ch : List (Nat × FastrieBuilderNode V))
    (iw : IndexWidth) (v : Option V) : (FastrieBuilderNode.mk b ch iw v).value = v := rfl

/-- new: an empty, unbuilt node. -/
def FastrieBuilderNode.new (iw : IndexWidth) : FastrieBuilderNode V :=
  FastrieBuilderNode.mk false [] iw none

/-- Lookup in the children association list. -/
def lookupChild (c : Nat) : List (Nat × FastrieBuilderNode V) → Option (FastrieBuilderNode V)
  | [] => none
  | (k, m) :: rest => if c = k then some m else lookupChild c rest

/-- Insert-or-replace in the children association list, keeping it sorted by
key (the canonical representation of the source HashMap). -/
def childInsert (c : Nat) (n : FastrieBuilderNode V) :
    List (Nat × FastrieBuilderNode V) → List (Nat × FastrieBuilderNode V)
  | [] => [(c, n)]
  | (k, m) :: rest =>
    if c < k then (c, n) :: (k, m) :: rest
    else if c = k then (c, n) :: rest
    else (k, m) :: childInsert c n rest

/-- add: walk the tree along pattern, creating missing nodes, and set the
value at the terminal node (overwriting any previous value there). -/
def FastrieBuilderNode.add : FastrieBuilderNode V → List Nat → V → FastrieBuilderNode V
  | n, [], value => FastrieBuilderNode.mk n.built n.children n.index_width (some value)
  | n, c :: rest, value =>
    let child := match lookupChild c n.children with
      | some child => child
      | none => FastrieBuilderNode.new n.index_width
    FastrieBuilderNode.mk n.built (childInsert c (child.add rest value) n.children) n.index_width n.value

/-- Populate a fresh builder root with a list of (key, value) pairs. -/
def addAll (iw : IndexWidth) (l : List (List Nat × V)) : FastrieBuilderNode V :=
  l.foldl (fun b p => b.add p.1 p.2) (FastrieBuilderNode.new iw)

/-- Append x to the last cluster (last_mut().unwrap().push(x)); a no-op on an
empty cluster list, which in the source is an unreachable panic. -/
def pushLast : List (List α) → α → List (List α)
  | [], _ => []
  | [l], x => [l ++ [x]]
  | l :: ls, x => l :: pushLast ls x

/-- Push k gap slots (None) onto the last cluster. -/
def pushGaps : List (List (Option Nat)) → Nat → List (List (Option Nat))
  | ls, 0 => ls
  | ls, k + 1 => pushGaps (pushLast ls none) k

/-- One step of cluster construction over the sorted child characters: start a
new cluster when the previous character is more than MAX_CLUSTER_GAP_LEN
positions away, otherwise fill the gap with None slots; then append the
character.  The accumulator carries (clusters, last_char), last_char being an
i16 initialized to i16::MIN (-32768). -/
def clusterFold (acc : List (List (Option Nat)) × Int) (c : Nat) : List (List (Option Nat)) × Int :=
  let clusters := acc.1
  let last_char := acc.2
  let p : Int := (c : Int)
  let clusters :=
    if last_char + MAX_CLUSTER_GAP_LEN < p then clusters ++ [[]]
    else pushGaps clusters ((p - 1) - last_char).toNat
  (pushLast clusters (some c), p)

/-- The sorted cluster list of a node given its sorted child characters:
fold clusterFold, then reorder the clusters by decreasing slot count
(a stable sort, as in the source). -/
def buildClusters (child_chars : List Nat) : List (List (Option Nat)) :=
  List.insertionSort (fun a b => b.length ≤ a.length)
    (child_chars.foldl clusterFold ([], ((-32768 : Int)))).1

/-- First byte of a cluster (cluster.first().unwrap().unwrap(); clusters are
never empty and always start with Some). -/
def clusterMin (cluster : List (Option Nat)) : Nat :=
  match cluster.head? with
  | some (some c) => c
  | _ => 0

/-- Last byte of a cluster (cluster.last().unwrap().unwrap()). -/
def clusterMax (cluster : List (Option Nat)) : Nat :=
  match cluster.getLast? with
  | some (some c) => c
  | _ => 0

/-- Lookup in the remembered reserved-slot positions (replace_with_child_indices). -/
def lookupPos (c : Nat) : List (Nat × Nat) → Nat
  | [] => 0
  | (k, p) :: rest => if c = k then p else lookupPos c rest

/-- Emit one cluster record: patch the previous cluster's next-cluster slot
with this cluster's position, reserve this cluster's next-cluster slot,
push min and max bytes, then for each slot either remember a reserved child
slot (Some) or push a zero index (None gap).  State is
(data, last_cluster_next_cluster_dist_pos, replace_with_child_indices). -/
def clusterEmit (iw : IndexWidth) (st : List Nat × Option Nat × List (Nat × Nat))
    (cluster : List (Option Nat)) : List Nat × Option Nat × List (Nat × Nat) :=
  let data := st.1
  let cluster_pos := data.length
  let data := match st.2.1 with
    | some out_pos => iw.write_idx data out_pos cluster_pos
    | none => data
  let r := iw.reserve_idx data
  let data := r.1
  let lastPatch : Option Nat := some r.2
  let data := data ++ [clusterMin cluster, clusterMax cluster]
  let step := cluster.foldl (fun (acc : List Nat × List (Nat × Nat)) oc =>
      match oc with
      | some c =>
        let r2 := iw.reserve_idx acc.1
        (r2.1, acc.2 ++ [(c, r2.2)])
      | none => (iw.push_idx acc.1 0, acc.2)) (data, st.2.2)
  (step.1, lastPatch, step.2)

/-- Serialize one child slot in the second pass: write the current end of
buffer into the remembered slot for this byte, then recurse into the child
(children.get_mut(c).unwrap(); a missing child, an unreachable panic in the
source, is modelled by none). -/
def childEmit (iw : IndexWidth)
    (recurse : FastrieBuilderNode V → List Nat → List V → Option (FastrieBuilderNode V × List Nat × List V))
    (rwci : List (Nat × Nat))
    (st : Option (List (Nat × FastrieBuilderNode V) × List Nat × List V))
    (oc : Option Nat) : Option (List (Nat × FastrieBuilderNode V) × List Nat × List V) :=
  match oc with
  | none => st
  | some c =>
    match st with
    | none => none
    | some (ch, data, values) =>
      let data := iw.write_idx data (lookupPos c rwci) data.length
      match lookupChild c ch with
      | none => none
      | some child =>
        match recurse child data values with
        | none => none
        | some (child2, data, values) => some (childInsert c child2 ch, data, values)

/-- The body of _build for one node, parameterized by the recursive call used
on children.  Returns none exactly where the source panics: on the
assert!(!self.built) or on an unreachable unwrap.  Otherwise returns the node
with built set, value taken and children rebuilt, together with the extended
data buffer and values table. -/
def buildStep (recurse : FastrieBuilderNode V → List Nat → List V → Option (FastrieBuilderNode V × List Nat × List V))
    (n : FastrieBuilderNode V) (data : List Nat) (values : List V) :
    Option (FastrieBuilderNode V × List Nat × List V) :=
  if n.built then none
  else
    let iw := n.index_width
    let value_idx : Nat := match n.value with
      | some _ => values.length + 1
      | none => 0
    let values := values ++ n.value.toList
    let data := iw.push_idx data value_idx
    let child_chars := List.insertionSort (fun a b => a ≤ b) (n.children.map (fun p => p.1))
    let child_char_clusters := buildClusters child_chars
    let data := data ++ [if n.children.isEmpty then 0 else 1]
    let st := child_char_clusters.foldl (clusterEmit iw) (data, (none : Option Nat), ([] : List (Nat × Nat)))
    let data := st.1
    let rwci := st.2.2
    let data := match st.2.1 with
      | some out_pos => iw.write_idx data out_pos 0
      | none => data
    (child_char_clusters.foldl
        (fun acc cluster => cluster.foldl (childEmit iw recurse rwci) acc)
        (some (n.children, data, values))).map
      (fun r => (FastrieBuilderNode.mk true r.1 iw none, r.2.1, r.2.2))

/-- _build, with a fuel argument standing for the recursion depth of the
source (which recurses structurally into children); any fuel at least the
height of the tree is enough. -/
def FastrieBuilderNode._build : Nat → FastrieBuilderNode V → List Nat → List V →
    Option (FastrieBuilderNode V × List Nat × List V)
  | 0, _, _, _ => none
  | fuel + 1, n, data, values => buildStep (FastrieBuilderNode._build fuel) n data values

/-- The result of prebuild: the serialized buffer, the index width and the
values table. -/
structure FastrieBuild (V : Type) where
  data : List Nat
  index_width : IndexWidth
  values : List V

mutual
/-- Number of nodes of a builder tree, used as ample fuel for _build (the
node count strictly exceeds the height). -/
def FastrieBuilderNode.size : FastrieBuilderNode V → Nat
  | .mk _ ch _ _ => 1 + FastrieBuilderNode.sizeList ch
/-- Total node count of a children list. -/
def FastrieBuilderNode.sizeList : List (Nat × FastrieBuilderNode V) → Nat
  | [] => 0
  | (_, n) :: rest => FastrieBuilderNode.size n + FastrieBuilderNode.sizeList rest
end

/-- prebuild: serialize from empty buffers.  Returns the build together with
the updated (now built) node; none models the panic of a second build. -/
def FastrieBuilderNode.prebuild (self : FastrieBuilderNode V) :
    Option (FastrieBuild V × FastrieBuilderNode V) :=
  (FastrieBuilderNode._build self.size self [] []).map
    (fun r => (⟨r.2.1, self.index_width, r.2.2⟩, r.1))

/-- The reader: borrowed data buffer, index width, and optional values table
(None when the trie is used as a set). -/
structure Fastrie (V : Type) where
  data : List Nat
  index_width : IndexWidth
  values : Option (List V)

/-- A returned match: end is the inclusive 0-based index of the last matched
byte; value models the reference &values[idx] (none stands for an
out-of-bounds index, a panic in the source). -/
structure FastrieMatch (V : Type) where
  end_ : Nat
  value : Option V
deriving DecidableEq

/-- from_prebuilt_without_values: a reader with no values table (the source
fixes V = ()). -/
def from_prebuilt_without_values (iw : IndexWidth) (data : List Nat) : Fastrie Unit :=
  ⟨data, iw, none⟩

/-- from_prebuilt: a reader with an attached values table. -/
def from_prebuilt (iw : IndexWidth) (values : List V) (data : List Nat) : Fastrie V :=
  ⟨data, iw, some values⟩

/-- memory_size: the length of the data buffer. -/
def Fastrie.memory_size (t : Fastrie V) : Nat := t.data.length

/-- The cluster-chain loop of _longest_matching_prefix: starting from
cluster_pos, find the cluster whose range contains c; some node_pos when a
nonzero child slot is found, none when the search stops (gap slot, or last
cluster reached).  Fuel bounds the chain walk; data.length + 1 exceeds any
chain the buffer can hold. -/
def clusterLoop (iw : IndexWidth) (data : List Nat) (c : Nat) : Nat → Nat → Option Nat
  | 0, _ => none
  | fuel + 1, cluster_pos =>
    let idx_bytes := iw.w
    let next_cluster_pos := iw.read_idx data cluster_pos
    let cluster_min := data.getD (cluster_pos + idx_bytes) 0
    let cluster_max := data.getD (cluster_pos + idx_bytes + 1) 0
    if cluster_min ≤ c ∧ c ≤ cluster_max then
      let node_pos := iw.read_idx data (cluster_pos + idx_bytes + 2 + (c - cluster_min) * idx_bytes)
      if node_pos = 0 then none else some node_pos
    else if next_cluster_pos = 0 then none
    else clusterLoop iw data c fuel next_cluster_pos

/-- The outer loop of _longest_matching_prefix over the query text, carrying
the enumeration index i, the current node position and the best match so far. -/
def lmpGo (iw : IndexWidth) (data : List Nat) : List Nat → Nat → Nat → Option (Nat × Nat) →
    Option (Nat × Nat)
  | [], _, _, match_opt => match_opt
  | c :: rest, i, node_pos, match_opt =>
    let idx_bytes := iw.w
    if data.getD (node_pos + idx_bytes) 0 = 0 then match_opt
    else
      match clusterLoop iw data c (data.length + 1) (node_pos + idx_bytes + 1) with
      | none => match_opt
      | some node_pos2 =>
        let node_value_idx := iw.read_idx data node_pos2
        lmpGo iw data rest (i + 1) node_pos2
          (if node_value_idx ≠ 0 then some (i, node_value_idx - 1) else match_opt)

/-- _longest_matching_prefix: the raw search, returning (end, value table
index) of the longest key that is a prefix of text, or none. -/
def Fastrie._longest_matching_prefix (t : Fastrie V) (text : List Nat) : Option (Nat × Nat) :=
  lmpGo t.index_width t.data text 0 0 none

/-- contains_key: accept iff the longest matching prefix ends at the last
byte of the key. -/
def Fastrie.contains_key (t : Fastrie V) (key : List Nat) : Bool :=
  (Option.filter (fun p => p.1 == key.length - 1) ( Fastrie._longest_matching_prefix t key)).isSome

/-- longest_matching_prefix: resolve the raw match against the values table;
Except.error () models the panic of self.values.unwrap() when the table is
absent and a match was found. -/
def Fastrie.longest_matching_prefix (t : Fastrie V) (text : List Nat) :
    Except Unit (Option (FastrieMatch V)) :=
  match Fastrie._longest_matching_prefix t text with
  | none => Except.ok none
  | some (e, value_idx) =>
    match t.values with
    | none => Except.error ()
    | some vs => Except.ok (some ⟨e, vs[value_idx]?⟩)

/-! ## Concrete builds used by the theorems -/

/-- Reader over a prebuild result (glue for stating theorems about the
builder-to-reader pipeline). -/
def readerOf : Option (FastrieBuild V × FastrieBuilderNode V) → Fastrie V
  | some (b, _) => from_prebuilt b.index_width b.values b.data
  | none => from_prebuilt ⟨0⟩ [] []

def iw1 : IndexWidth := ⟨1⟩

def iw2 : IndexWidth := ⟨2⟩

/-- The pairs hell -> 1, hello -> 2, world -> 4 (ASCII bytes). -/
def pairs1 : List (List Nat × Nat) :=
  [([104, 101, 108, 108], 1), ([104, 101, 108, 108, 111], 2), ([119, 111, 114, 108, 100], 4)]

/-- Reader for pairs1 at width 1. -/
def trie1 : Fastrie Nat := readerOf (addAll iw1 pairs1).prebuild

/-- Reader for the single pair a -> 5 at width 2. -/
def trieW2a : Fastrie Nat := readerOf (addAll iw2 [([97], 5)]).prebuild

/-- Reader for the single pair b -> 7 at width 2. -/
def trieW2b : Fastrie Nat := readerOf (addAll iw2 [([98], 7)]).prebuild

/-- Build for keys aa -> 1, ac -> 2, af -> 3 at width 1 (gap scenario). -/
def gapBuild : Option (FastrieBuild Nat × FastrieBuilderNode Nat) :=
  (addAll iw1 [([97, 97], 1), ([97, 99], 2), ([97, 102], 3)]).prebuild

def gapTrie : Fastrie Nat := readerOf gapBuild

/-- Build after add(x, 1); add(x, 2) at width 1. -/
def overwriteBuild : Option (FastrieBuild Nat × FastrieBuilderNode Nat) :=
  (((FastrieBuilderNode.new iw1 : FastrieBuilderNode Nat).add [120] 1).add [120] 2).prebuild

def overwriteTrie : Fastrie Nat := readerOf overwriteBuild

/-- Build after add(y, 1); add(y, 2) at width 2. -/
def overwriteBuildW2 : Option (FastrieBuild Nat × FastrieBuilderNode Nat) :=
  (((FastrieBuilderNode.new iw2 : FastrieBuilderNode Nat).add [121] 1).add [121] 2).prebuild

def overwriteTrieW2 : Fastrie Nat := readerOf overwriteBuildW2

/-- Build with the empty key stored at the root (add "" 7; add "a" 1), width 1. -/
def emptyKeyBuild : Option (FastrieBuild Nat × FastrieBuilderNode Nat) :=
  (((FastrieBuilderNode.new iw1 : FastrieBuilderNode Nat).add [] 7).add [97] 1).prebuild

def emptyKeyTrie : Fastrie Nat := readerOf emptyKeyBuild

/-- A single-key builder a -> 5 at width 1, serialized below into a buffer that
already holds 256 bytes, so that its child record lands at position 262 > 255. -/
def overflowNode : FastrieBuilderNode Nat := (FastrieBuilderNode.new iw1).add [97] 5

/-- Running the serializer on overflowNode against a 256-byte buffer: every
index it then emits exceeds the one-byte range. -/
def overflowRun : Option (FastrieBuilderNode Nat × List Nat × List Nat) :=
  FastrieBuilderNode._build 2 overflowNode (List.replicate 256 0) []

/-! ## Codec theorems (claims C1 and C2) -/

/-- Claim C1 (code bug): write_idx emits indices little-endian, as the source
documents, but read_idx folds bytes back most-significant-first: with W = 2 the
encoding of 1 is the byte pair 1, 0, which decodes to 256, so
decode(encode(n)) = n fails for every W in 2..8 (shown here for W = 2, 3 and 8);
the round trip holds at W = 1, where an index is a single byte. -/
theorem read_idx_write_idx_endianness :
    (IndexWidth.mk 2).push_idx [] 1 = [1, 0] ∧
    (IndexWidth.mk 2).read_idx ((IndexWidth.mk 2).push_idx [] 1) 0 = 256 ∧
    (IndexWidth.mk 3).read_idx ((IndexWidth.mk 3).push_idx [] 1) 0 = 65536 ∧
    (IndexWidth.mk 8).read_idx ((IndexWidth.mk 8).push_idx [] 1) 0 = 72057594037927936 ∧
    (IndexWidth.mk 1).read_idx ((IndexWidth.mk 1).push_idx [] 0) 0 = 0 ∧
    (IndexWidth.mk 1).read_idx ((IndexWidth.mk 1).push_idx [] 37) 0 = 37 ∧
    (IndexWidth.mk 1).read_idx ((IndexWidth.mk 1).push_idx [] 255) 0 = 255 :=
  ⟨rfl, rfl, rfl, rfl, rfl, rfl, rfl⟩

set_option maxRecDepth 10000 in
/-- Claim C2 (counterexample): no overflow check exists.  With W = 1, the index
256 is encoded as the single byte 0 and the index 258 overwrites a slot with
the byte 2; a build whose child record lands at position 262 completes
normally (returns some), emits the truncated slot byte 6 at position 261 and
serializes the child value, instead of failing fatally. -/
theorem index_overflow_not_rejected :
    iw1.push_idx [] 256 = [0] ∧
    iw1.write_idx [255] 0 258 = [2] ∧
    overflowRun.isSome = true ∧
    overflowRun.map (fun r => r.2.1.getD 261 0) = some 6 ∧
    overflowRun.map (fun r => r.2.1.length) = some 264 ∧
    overflowRun.map (fun r => r.2.2) = some [5] :=
  ⟨rfl, rfl, rfl, rfl, rfl, rfl⟩

/-- One byte of a truncated index agrees with the corresponding byte of the
index reduced mod 2^(8w), for positions inside the field. -/
theorem shiftRight_mod_of_lt (idx w i : Nat) (h : i < w) :
    ((idx % 2 ^ (8 * w)) >>> (8 * i)) % 256 = (idx >>> (8 * i)) % 256 := by
  rw [Nat.shiftRight_eq_div_pow, Nat.shiftRight_eq_div_pow]
  have h256 : (256 : Nat) = 2 ^ 8 := by norm_num
  rw [h256, ← Nat.mod_mul_right_div_self, ← Nat.mod_mul_right_div_self, ← pow_add,
    Nat.mod_mod_of_dvd _ (pow_dvd_pow 2 (by omega))]

/-- Claim C2 (amended): write_idx performs no range check and stores exactly
the low W bytes of the index, i.e. idx mod 2^(8W); any index above
2^(8W) - 1 is silently truncated, never rejected. -/
theorem write_idx_truncates_mod (iw : IndexWidth) (vec : List Nat) (pos idx : Nat) :
    iw.write_idx vec pos idx = iw.write_idx vec pos (idx % 2 ^ (8 * iw.w)) := by
  unfold IndexWidth.write_idx
  refine (List.foldl_ext _ _ vec fun a i hi => ?_).symm
  rw [shiftRight_mod_of_lt idx iw.w i (List.mem_range.mp hi)]

/-! ## Double-build theorems (claim C8) -/

/-- Whenever one invocation of the _build body succeeds, the node it returns
carries the built flag. -/
theorem buildStep_some_built {V : Type}
    {recurse : FastrieBuilderNode V → List Nat → List V → Option (FastrieBuilderNode V × List Nat × List V)}
    {n n' : FastrieBuilderNode V} {data d : List Nat} {values v : List V}
    (h : buildStep recurse n data values = some (n', d, v)) : n'.built = true := by
  unfold buildStep at h
  by_cases hb : n.built = true
  · simp [hb] at h
  · simp only [Bool.not_eq_true] at hb
    simp only [hb, Bool.false_eq_true, if_false, Option.map_eq_some'] at h
    obtain ⟨r, -, hr⟩ := h
    obtain ⟨rfl, -, -⟩ := Prod.mk.injEq .. ▸ hr
    rfl

/-- Whenever prebuild succeeds, the updated builder it returns carries the
built flag. -/
theorem prebuild_some_built {V : Type} {b b' : FastrieBuilderNode V} {res : FastrieBuild V}
    (h : b.prebuild = some (res, b')) : b'.built = true := by
  unfold FastrieBuilderNode.prebuild at h
  rw [Option.map_eq_some'] at h
  obtain ⟨⟨n, d, v⟩, hb, heq⟩ := h
  cases hsz : b.size with
  | zero => rw [hsz] at hb; simp [FastrieBuilderNode._build] at hb
  | succ k =>
    rw [hsz] at hb
    simp only [FastrieBuilderNode._build] at hb
    have : b' = n := congrArg Prod.snd heq.symm
    exact this ▸ buildStep_some_built hb

/-- A node whose built flag is set fails to build again, whatever the fuel. -/
theorem build_of_built {V : Type} {b : FastrieBuilderNode V} (h : b.built = true)
    (fuel : Nat) (data : List Nat) (values : List V) :
    FastrieBuilderNode._build fuel b data values = none := by
  cases fuel with
  | zero => rfl
  | succ k => simp [FastrieBuilderNode._build, buildStep, h]

/-- Claim C8: the one-shot built flag makes a second prebuild fail: composing
prebuild with a second prebuild of the updated builder always yields none
(the second assert panics), while a first prebuild of a fresh builder
succeeds. -/
theorem prebuild_twice_panics :
    (∀ (V : Type) (b : FastrieBuilderNode V),
        (b.prebuild.bind fun x => x.2.prebuild) = none) ∧
    (addAll iw1 [([97], (1 : Nat))]).prebuild.isSome = true := by
  refine ⟨fun V b => ?_, rfl⟩
  cases h : b.prebuild with
  | none => rfl
  | some x =>
    obtain ⟨res, b'⟩ := x
    have hb : b'.built = true := prebuild_some_built h
    show b'.prebuild = none
    unfold FastrieBuilderNode.prebuild
    rw [build_of_built hb]
    rfl

/-! ## Determinism of the build (claim C6) -/

theorem add_nil (n : FastrieBuilderNode V) (v : V) :
    n.add [] v = FastrieBuilderNode.mk n.built n.children n.index_width (some v) := rfl

/-- Unfolding of add on a nonempty pattern, with the child expressed through
Option.getD. -/
theorem add_cons (n : FastrieBuilderNode V) (c : Nat) (rest : List Nat) (v : V) :
    n.add (c :: rest) v = FastrieBuilderNode.mk n.built
      (childInsert c
        (((lookupChild c n.children).getD (FastrieBuilderNode.new n.index_width)).add rest v)
        n.children)
      n.index_width n.value := by
  cases h : lookupChild c n.children <;> simp [FastrieBuilderNode.add, h]

theorem lookupChild_childInsert_self (c : Nat) (x : FastrieBuilderNode V) :
    ∀ ch, lookupChild c (childInsert c x ch) = some x := by
  intro ch
  induction ch with
  | nil => simp [childInsert, lookupChild]
  | cons p rest ih =>
    obtain ⟨k, m⟩ := p
    by_cases h1 : c < k
    · simp [childInsert, h1, lookupChild]
    · by_cases h2 : c = k
      · simp [childInsert, h1, h2, lookupChild]
      · simp [childInsert, h1, h2, lookupChild, ih]

theorem lookupChild_childInsert_ne {c' c : Nat} (h : c' ≠ c) (x : FastrieBuilderNode V) :
    ∀ ch, lookupChild c' (childInsert c x ch) = lookupChild c' ch := by
  intro ch
  induction ch with
  | nil => simp [childInsert, lookupChild, h]
  | cons p rest ih =>
    obtain ⟨k, m⟩ := p
    by_cases h1 : c < k
    · simp [childInsert, h1, lookupChild, h]
    · by_cases h2 : c = k
      · subst h2; simp [childInsert, h1, lookupChild, h]
      · simp [childInsert, h1, h2, lookupChild, ih]

theorem childInsert_childInsert (c : Nat) (x y : FastrieBuilderNode V) :
    ∀ ch, childInsert c y (childInsert c x ch) = childInsert c y ch := by
  intro ch
  induction ch with
  | nil => simp [childInsert]
  | cons p rest ih =>
    obtain ⟨k, m⟩ := p
    by_cases h1 : c < k
    · simp [childInsert, h1]
    · by_cases h2 : c = k
      · subst h2; simp [childInsert, h1]
      · simp [childInsert, h1, h2, ih]

theorem childInsert_comm {c1 c2 : Nat} (h : c1 ≠ c2) (x y : FastrieBuilderNode V) :
    ∀ ch, childInsert c1 x (childInsert c2 y ch) = childInsert c2 y (childInsert c1 x ch) := by
  intro ch
  induction ch with
  | nil =>
    rcases Nat.lt_or_gt_of_ne h with hlt | hgt
    · have n1 : ¬ c2 < c1 := by omega
      have n2 : c2 ≠ c1 := by omega
      simp [childInsert, hlt, n1, n2]
    · have n1 : ¬ c1 < c2 := by omega
      simp [childInsert, hgt, n1, h]
  | cons p rest ih =>
    obtain ⟨k, m⟩ := p
    rcases Nat.lt_trichotomy c1 k with h1 | h1 | h1 <;>
      rcases Nat.lt_trichotomy c2 k with h2 | h2 | h2
    · -- c1 < k, c2 < k
      rcases Nat.lt_trichotomy c1 c2 with h3 | h3 | h3
      · have n1 : ¬ c2 < c1 := by omega
        have n2 : c2 ≠ c1 := by omega
        simp [childInsert, h1, h2, h3, n1, n2]
      · exact absurd h3 h
      · have n1 : ¬ c1 < c2 := by omega
        simp [childInsert, h1, h2, h3, n1, h]
    · -- c1 < k, c2 = k
      subst h2
      have n1 : ¬ c2 < c1 := by omega
      have n2 : c2 ≠ c1 := by omega
      simp [childInsert, h1, n1, n2]
    · -- c1 < k, k < c2
      have n1 : ¬ c2 < c1 := by omega
      have n2 : c2 ≠ c1 := by omega
      have n3 : ¬ c2 < k := by omega
      have n4 : c2 ≠ k := by omega
      simp [childInsert, h1, h2, n1, n2, n3, n4]
    · -- c1 = k, c2 < k
      subst h1
      have n1 : ¬ c1 < c2 := by omega
      simp [childInsert, h2, n1, h]
    · -- c1 = k = c2: impossible
      exact absurd (h1.trans h2.symm) h
    · -- c1 = k, k < c2
      subst h1
      have n1 : ¬ c1 < c1 := by omega
      have n2 : ¬ c2 < c1 := by omega
      have n3 : c2 ≠ c1 := by omega
      simp [childInsert, n1, n2, n3]
    · -- k < c1, c2 < k
      have n1 : ¬ c1 < c2 := by omega
      have n2 : c1 ≠ c2 := h
      have n3 : ¬ c1 < k := by omega
      have n4 : c1 ≠ k := by omega
      simp [childInsert, h2, n1, n2, n3, n4]
    · -- k < c1, c2 = k
      subst h2
      have n1 : ¬ c1 < c2 := by omega
      have n2 : ¬ c2 < c2 := by omega
      simp [childInsert, n1, n2, h]
    · -- k < c1, k < c2
      have n1 : ¬ c1 < k := by omega
      have n2 : c1 ≠ k := by omega
      have n3 : ¬ c2 < k := by omega
      have n4 : c2 ≠ k := by omega
      simp [childInsert, n1, n2, n3, n4, ih]

/-- Two adds at distinct keys commute. -/
theorem add_add_comm : ∀ (k1 : List Nat) (n : FastrieBuilderNode V) (k2 : List Nat)
    (v1 v2 : V), k1 ≠ k2 → (n.add k1 v1).add k2 v2 = (n.add k2 v2).add k1 v1 := by
  intro k1
  induction k1 with
  | nil =>
    intro n k2 v1 v2 hne
    cases k2 with
    | nil => exact absurd rfl hne
    | cons c2 r2 => rw [add_nil, add_cons, add_cons, add_nil]; simp
  | cons c1 r1 ih =>
    intro n k2 v1 v2 hne
    cases k2 with
    | nil => rw [add_cons, add_nil, add_nil, add_cons]; simp
    | cons c2 r2 =>
      by_cases hc : c1 = c2
      · subst hc
        have hr : r1 ≠ r2 := fun hh => hne (by rw [hh])
        rw [add_cons, add_cons, add_cons, add_cons]
        simp only [FastrieBuilderNode.built_mk, FastrieBuilderNode.children_mk,
          FastrieBuilderNode.index_width_mk, FastrieBuilderNode.value_mk]
        rw [lookupChild_childInsert_self, lookupChild_childInsert_self]
        simp only [Option.getD_some]
        rw [childInsert_childInsert, childInsert_childInsert, ih _ _ _ _ hr]
      · rw [add_cons, add_cons, add_cons, add_cons]
        simp only [FastrieBuilderNode.built_mk, FastrieBuilderNode.children_mk,
          FastrieBuilderNode.index_width_mk, FastrieBuilderNode.value_mk]
        rw [lookupChild_childInsert_ne (fun hh => hc hh.symm),
          lookupChild_childInsert_ne hc, childInsert_comm hc]

/-- Populating a builder with the same pairs in any order produces the same
builder tree, provided the keys are pairwise distinct. -/
theorem addAll_perm (iw : IndexWidth) {l1 l2 : List (List Nat × V)} (hp : l1.Perm l2)
    (hd : l1.Pairwise fun p q => p.1 ≠ q.1) : addAll iw l1 = addAll iw l2 := by
  unfold addAll
  refine hp.foldl_eq' (fun x hx y hy z => ?_) _
  by_cases hxy : x = y
  · subst hxy; rfl
  · have hne : x.1 ≠ y.1 :=
      List.Pairwise.forall (fun a b hab => hab.symm) hd hx hy hxy
    exact add_add_comm x.1 z y.1 x.2 y.2 hne

/-- Claim C6: serialization is deterministic: two builders populated with the
same (key, value) pairs (in any order; keys distinct) produce the same
prebuild result, hence byte-identical data buffers and identical value
tables. -/
theorem prebuild_deterministic (iw : IndexWidth) (l1 l2 : List (List Nat × V))
    (hp : l1.Perm l2) (hd : l1.Pairwise fun p q => p.1 ≠ q.1) :
    (addAll iw l1).prebuild = (addAll iw l2).prebuild := by
  rw [addAll_perm iw hp hd]

/-- Witness for prebuild_deterministic at a concrete pair list. -/
theorem prebuild_deterministic_witness :
    (addAll iw1 [([97], (1 : Nat)), ([98, 99], 2)]).prebuild =
      (addAll iw1 [([98, 99], (2 : Nat)), ([97], 1)]).prebuild :=
  prebuild_deterministic iw1 _ _ (by decide) (by decide)

/-! ## Reader theorems (claims C3, C4, C5, C7, C9, C10) -/

/-- The cluster-chain loop only ever returns a nonzero node position (a zero
child slot is a gap and terminates the search instead). -/
theorem clusterLoop_some_ne {iw : IndexWidth} {data : List Nat} {c : Nat} :
    ∀ {fuel cluster_pos np : Nat},
      clusterLoop iw data c fuel cluster_pos = some np → np ≠ 0 := by
  intro fuel
  induction fuel with
  | zero => intro cp np h; exact absurd h (by simp [clusterLoop])
  | succ k ih =>
    intro cp np h
    rw [clusterLoop] at h
    simp only at h
    split at h
    · split at h
      · exact absurd h (by simp)
      · rename_i hnz
        rw [Option.some.injEq] at h
        exact h ▸ hnz
    · split at h
      · exact absurd h (by simp)
      · exact ih h

/-- Every match recorded by the search comes from a node reached by a child
transition: its value index is read at a nonzero position, never at the root
position 0.  The accumulator invariant version over lmpGo. -/
theorem lmpGo_match_nonzero (iw : IndexWidth) (data : List Nat) :
    ∀ (text : List Nat) (i node_pos : Nat) (m : Option (Nat × Nat)),
      (∀ e vi, m = some (e, vi) → ∃ np, np ≠ 0 ∧ iw.read_idx data np = vi + 1) →
      ∀ e vi, lmpGo iw data text i node_pos m = some (e, vi) →
        ∃ np, np ≠ 0 ∧ iw.read_idx data np = vi + 1 := by
  intro text
  induction text with
  | nil => intro i np m hm e vi h; exact hm e vi h
  | cons c rest ih =>
    intro i np m hm e vi h
    rw [lmpGo] at h
    simp only at h
    split at h
    · exact hm e vi h
    · split at h
      · exact hm e vi h
      · rename_i np2 hcl
        refine ih _ _ _ ?_ e vi h
        intro e' vi' hm'
        split at hm'
        · rename_i hvz
          obtain ⟨rfl, rfl⟩ := Prod.mk.injEq .. ▸ Option.some.injEq .. ▸ hm'
          refine ⟨np2, clusterLoop_some_ne hcl, ?_⟩
          omega
        · exact hm e' vi' hm'

/-- Claim C9: the search never reports the root value: any returned match
reads its value index at a nonzero node position; on the empty query the
search returns none, and contains_key of the empty key is false with no
runtime error; concretely, a build holding the empty key (value 7) and the
key a (value 1) stores both values but only ever reports value 1. -/
theorem empty_key_never_matches :
    (∀ (V : Type) (t : Fastrie V),
        Fastrie._longest_matching_prefix t [] = none ∧
        t.contains_key [] = false ∧
        Fastrie.longest_matching_prefix t [] = Except.ok none) ∧
    (∀ (V : Type) (t : Fastrie V) (text : List Nat) (e vi : Nat),
        Fastrie._longest_matching_prefix t text = some (e, vi) →
        ∃ np, np ≠ 0 ∧ t.index_width.read_idx t.data np = vi + 1) ∧
    emptyKeyBuild.map (fun x => x.1.values) = some [7, 1] ∧
    Fastrie.longest_matching_prefix emptyKeyTrie [] = Except.ok none ∧
    emptyKeyTrie.contains_key [] = false ∧
    Fastrie.longest_matching_prefix emptyKeyTrie [97] = Except.ok (some ⟨0, some 1⟩) := by
  refine ⟨fun V t => ⟨rfl, rfl, rfl⟩, fun V t text e vi h => ?_, rfl, rfl, rfl, rfl⟩
  exact lmpGo_match_nonzero t.index_width t.data text 0 0 none (by simp) e vi h

/-- Witness for the match-from-nonroot part of empty_key_never_matches, at the
concrete empty-key build and the query a. -/
theorem empty_key_never_matches_witness :
    ∃ np, np ≠ 0 ∧ emptyKeyTrie.index_width.read_idx emptyKeyTrie.data np = 1 + 1 :=
  empty_key_never_matches.2.1 Nat emptyKeyTrie [97] 0 1 (by rfl)

/-- Claim C10: a reader constructed without a values table answers
contains_key exactly like a reader with one (the values table is never
consulted); its longest_matching_prefix panics (models the unwrap of the
absent table) exactly when the raw search finds a match, and returns None
exactly when the raw search finds none. -/
theorem without_values_reader_behavior :
    (∀ (V : Type) (iw : IndexWidth) (data : List Nat) (vs : List V) (key : List Nat),
        (from_prebuilt_without_values iw data).contains_key key =
          (from_prebuilt iw vs data).contains_key key) ∧
    (∀ (iw : IndexWidth) (data text : List Nat),
        Fastrie.longest_matching_prefix (from_prebuilt_without_values iw data) text
            = Except.error () ↔
          ( Fastrie._longest_matching_prefix (from_prebuilt_without_values iw data) text).isSome
            = true) ∧
    (∀ (iw : IndexWidth) (data text : List Nat),
        Fastrie.longest_matching_prefix (from_prebuilt_without_values iw data) text
            = Except.ok none ↔
          Fastrie._longest_matching_prefix (from_prebuilt_without_values iw data) text
            = none) := by
  refine ⟨fun V iw data vs key => rfl, fun iw data text => ?_, fun iw data text => ?_⟩
  · cases h : Fastrie._longest_matching_prefix (from_prebuilt_without_values iw data) text with
    | none => simp [Fastrie.longest_matching_prefix, h]
    | some p =>
      obtain ⟨e, vi⟩ := p
      simp only [from_prebuilt_without_values] at h ⊢
      simp [Fastrie.longest_matching_prefix, h]
  · cases h : Fastrie._longest_matching_prefix (from_prebuilt_without_values iw data) text with
    | none => simp [Fastrie.longest_matching_prefix, h]
    | some p =>
      obtain ⟨e, vi⟩ := p
      simp only [from_prebuilt_without_values] at h ⊢
      simp [Fastrie.longest_matching_prefix, h]

/-- Claim C3 (code bug): with W = 1 the scenario keys hell, hello, world are
all members and near-misses are not; but with W = 2 even the single key a is
not found (contains_key returns false here; in the source the same lookup
reads a big-endian-decoded child position of 2304 in a 12-byte buffer and
panics), because read_idx decodes the little-endian child slot back
big-endian. -/
theorem contains_key_examples_and_w2_failure :
    trie1.contains_key [104, 101, 108, 108] = true ∧
    trie1.contains_key [104, 101, 108, 108, 111] = true ∧
    trie1.contains_key [119, 111, 114, 108, 100] = true ∧
    trie1.contains_key [119, 111, 114, 108] = false ∧
    trie1.contains_key [119, 111, 114, 108, 100, 115] = false ∧
    trieW2a.contains_key [97] = false :=
  ⟨rfl, rfl, rfl, rfl, rfl, rfl⟩

/-- Claim C4 (code bug): with W = 1 longest_matching_prefix returns the
longest key that is a prefix of the query, with inclusive end index and the
stored value, and none when no key is a prefix; but with W = 2 the single key
b is not found as a prefix of bx (the embedding returns ok none; the source
panics on an out-of-bounds read at the big-endian-decoded position 2304). -/
theorem lmp_examples_and_w2_failure :
    Fastrie.longest_matching_prefix trie1 [104, 101, 108, 108, 111, 32, 119, 111, 114, 108, 100, 33]
      = Except.ok (some ⟨4, some 2⟩) ∧
    Fastrie.longest_matching_prefix trie1 [104, 101, 108, 108, 39, 115]
      = Except.ok (some ⟨3, some 1⟩) ∧
    Fastrie.longest_matching_prefix trie1 [119, 111, 114, 108, 100, 115]
      = Except.ok (some ⟨4, some 4⟩) ∧
    Fastrie.longest_matching_prefix trie1 [119, 111, 114, 108] = Except.ok none ∧
    Fastrie.longest_matching_prefix trie1 [104, 101, 108, 112] = Except.ok none ∧
    Fastrie.longest_matching_prefix trieW2b [98, 120] = Except.ok none :=
  ⟨rfl, rfl, rfl, rfl, rfl, rfl⟩

/-- Claim C5 (code bug): add(x, 1); add(x, 2) then build leaves exactly one
value table entry, equal to 2, and the W = 1 query for x returns it; but the
same overwrite at W = 2 (key y) yields a trie whose query for y finds no
match (ok none here; an out-of-bounds panic in the source), so the claim
fails for W above 1. -/
theorem overwrite_examples :
    overwriteBuild.map (fun x => x.1.values) = some [2] ∧
    Fastrie.longest_matching_prefix overwriteTrie [120] = Except.ok (some ⟨0, some 2⟩) ∧
    overwriteBuildW2.map (fun x => x.1.values) = some [2] ∧
    Fastrie.longest_matching_prefix overwriteTrieW2 [121] = Except.ok none :=
  ⟨rfl, rfl, rfl, rfl⟩

/-- Claim C7: cluster construction starts a new cluster exactly when the
previous byte p and the next byte c satisfy p + 3 < c, filling the bytes in
between with gap slots otherwise; hence the children a, c, f of the a node
share one cluster with gaps at b, d, e (while a and z split into two), and
the queries ab and ad return none while af matches at end 1. -/
theorem cluster_gap_rule :
    (∀ (clusters : List (List (Option Nat))) (last : Int) (c : Nat),
        clusterFold (clusters, last) c =
          (if last + 3 < (c : Int) then pushLast (clusters ++ [[]]) (some c)
           else pushLast (pushGaps clusters ((c : Int) - 1 - last).toNat) (some c),
           (c : Int))) ∧
    buildClusters [97, 99, 102] = [[some 97, none, some 99, none, none, some 102]] ∧
    buildClusters [97, 122] = [[some 97], [some 122]] ∧
    Fastrie.longest_matching_prefix gapTrie [97, 98] = Except.ok none ∧
    Fastrie.longest_matching_prefix gapTrie [97, 100] = Except.ok none ∧
    Fastrie.longest_matching_prefix gapTrie [97, 102] = Except.ok (some ⟨1, some 3⟩) ∧
    gapTrie.contains_key [97, 102] = true := by
  refine ⟨fun clusters last c => ?_, rfl, rfl, rfl, rfl, rfl, rfl⟩
  by_cases hc : last + 3 < (c : Int)
  · simp [clusterFold, MAX_CLUSTER_GAP_LEN, hc]
  · simp [clusterFold, MAX_CLUSTER_GAP_LEN, hc]
